import Mathlib

/-!
Shallow embedding of the predator-prey ecosystem simulation `alife.py`.

Randomness in the source (`random.choice`, `random.randint`, `numpy.random.rand`)
is modelled by threading the drawn values explicitly: movement consumes a stream
of naturals interpreted through `choice3`, reproduction consumes one natural per
reproducing animal interpreted through `randint`, and grass regrowth receives the
per-cell uniform draws as a function into the rationals.
-/

namespace Alife

/-- Grid side length, `ARRSIZE = 65` in the source. -/
def ARRSIZE : Nat := 65

/-- Grass regrowth probability, `GRASS_RATE = 0.035` in the source. -/
def GRASS_RATE : ℚ := 35 / 1000

/-- One rabbit or fox: the mutable state plus the per-species constants,
mirroring `Animal.__init__`.  The field `eaten` is the source's `self.eaten`
counter (the spec calls it `food_eaten`). -/
structure Animal where
  species : String
  max_offspring : Nat
  starvation_level : Nat
  reproduction_level : Nat
  hunger : Nat
  eaten : Nat
  alive : Bool
  x : Int
  y : Int
deriving DecidableEq

/-- Interpretation of `rnd.choice([-1, 0, 1])`: the drawn stream element picks
one of the three displacements. -/
def choice3 (r : Nat) : Int :=
  if r % 3 = 0 then -1 else if r % 3 = 1 then 0 else 1

/-- `Animal.move`: displace each coordinate by a drawn element of {-1,0,1} and
wrap modulo `ARRSIZE` (Python `%` on a positive modulus is `Int.emod`). -/
def Animal.move (a : Animal) (rx ry : Nat) : Animal :=
  { a with x := (a.x + choice3 rx) % (ARRSIZE : Int),
           y := (a.y + choice3 ry) % (ARRSIZE : Int) }

/-- `Animal.eat`: add the amount to `eaten` and reset `hunger` to 0. -/
def Animal.eat (a : Animal) (amount : Nat) : Animal :=
  { a with eaten := a.eaten + amount, hunger := 0 }

/-- `Animal.starve`: increment `hunger`; if it reaches `starvation_level`,
mark the animal dead. -/
def Animal.starve (a : Animal) : Animal :=
  if a.starvation_level ≤ a.hunger + 1 then
    { a with hunger := a.hunger + 1, alive := false }
  else
    { a with hunger := a.hunger + 1 }

/-- `Animal.can_reproduce`: has the animal eaten at least `reproduction_level`. -/
def Animal.can_reproduce (a : Animal) : Bool :=
  decide (a.reproduction_level ≤ a.eaten)

/-- Interpretation of `rnd.randint(0, hi)`: the drawn natural reduced into
the inclusive range `[0, hi]`. -/
def randint (r hi : Nat) : Nat := r % (hi + 1)

/-- `Animal.reproduce`: reset the parent's `eaten` to 0 first, then return the
updated parent together with `randint r max_offspring` deep copies of it
(the copies are taken after the reset, so they carry `eaten = 0` but the
parent's current `hunger`, `alive` and position). -/
def Animal.reproduce (a : Animal) (r : Nat) : Animal × List Animal :=
  ({ a with eaten := 0 }, List.replicate (randint r a.max_offspring) { a with eaten := 0 })

/-- The grass grid, `np.ones((ARRSIZE, ARRSIZE))`-style arrays embedded as
functions from coordinates to cell values (1 = grass, 0 = empty). -/
abbrev Grid : Type := Int → Int → Nat

/-- `np.ones((n, n))`: value 1 on the n×n index range, 0 outside it. -/
def onesGrid (n : Nat) : Grid := fun x y =>
  if 0 ≤ x ∧ x < (n : Int) ∧ 0 ≤ y ∧ y < (n : Int) then 1 else 0

/-- Single-cell array write `g[x, y] = v`. -/
def setCell (g : Grid) (x y : Int) (v : Nat) : Grid := fun i j =>
  if i = x ∧ j = y then v else g i j

/-- `Field`: the grass grid plus the two populations. -/
structure Field where
  field : Grid
  rabbits : List Animal
  foxes : List Animal

/-- `Field.__init__` generalized over the module constant `ARRSIZE`:
an all-grass n×n grid and empty populations.  The source constructor performs
no validation of the dimension. -/
def Field.init (n : Nat) : Field :=
  { field := onesGrid n, rabbits := [], foxes := [] }

/-- `Field.add_animal`: append to the population matching the species string;
any other species falls through both branches and the field is unchanged. -/
def Field.add_animal (f : Field) (a : Animal) : Field :=
  if a.species = "rabbit" then { f with rabbits := f.rabbits ++ [a] }
  else if a.species = "fox" then { f with foxes := f.foxes ++ [a] }
  else f

/-- The movement loop body: each animal consumes two stream draws. -/
def moveList : (Nat → Nat) → List Animal → List Animal
  | _, [] => []
  | ds, a :: as => a.move (ds 0) (ds 1) :: moveList (fun i => ds (i + 2)) as

/-- `Field.move_animals`: iterate over `self.rabbits + self.foxes`. -/
def Field.move_animals (f : Field) (ds : Nat → Nat) : Field :=
  { f with rabbits := moveList ds f.rabbits,
           foxes := moveList (fun i => ds (i + 2 * f.rabbits.length)) f.foxes }

/-- The `feed_rabbits` loop: each rabbit in order checks the current grid at
its own cell; on grass it eats 1 and the cell is zeroed, otherwise it starves. -/
def feedRabbitsAux : Grid → List Animal → Grid × List Animal
  | g, [] => (g, [])
  | g, r :: rs =>
    if g r.x r.y = 1 then
      ((feedRabbitsAux (setCell g r.x r.y 0) rs).1,
        r.eat 1 :: (feedRabbitsAux (setCell g r.x r.y 0) rs).2)
    else
      ((feedRabbitsAux g rs).1, r.starve :: (feedRabbitsAux g rs).2)

/-- `Field.feed_rabbits`. -/
def Field.feed_rabbits (f : Field) : Field :=
  { f with field := (feedRabbitsAux f.field f.rabbits).1,
           rabbits := (feedRabbitsAux f.field f.rabbits).2 }

/-- The `rabbit_locations` grouping of `feed_foxes`: the rabbits whose
position is exactly the given cell. -/
def rabbitsAt (rabbits : List Animal) (x y : Int) : List Animal :=
  rabbits.filter (fun r => r.x == x && r.y == y)

/-- `Field.feed_foxes`: the location map is built once from the rabbit list;
every rabbit sharing a cell with some fox is marked dead, and every fox either
eats the full rabbit count of its cell or starves.  Foxes sharing a cell each
consume the same group. -/
def Field.feed_foxes (f : Field) : Field :=
  { f with
    rabbits := f.rabbits.map (fun r =>
      if f.foxes.any (fun fx => fx.x == r.x && fx.y == r.y) then
        { r with alive := false }
      else r),
    foxes := f.foxes.map (fun fx =>
      if (rabbitsAt f.rabbits fx.x fx.y).length ≠ 0 then
        fx.eat (rabbitsAt f.rabbits fx.x fx.y).length
      else fx.starve) }

/-- `Field.remove_dead`: keep only the living animals of both populations. -/
def Field.remove_dead (f : Field) : Field :=
  { f with rabbits := f.rabbits.filter (fun r => r.alive),
           foxes := f.foxes.filter (fun fx => fx.alive) }

/-- The reproduction loop over one population: parents stay in place (with
`eaten` reset when they reproduce) and the offspring lists are concatenated in
parent order; one stream draw is consumed per reproducing animal. -/
def reproduceList : (Nat → Nat) → List Animal → List Animal × List Animal
  | _, [] => ([], [])
  | ks, a :: as =>
    if a.can_reproduce then
      ((a.reproduce (ks 0)).1 :: (reproduceList (fun i => ks (i + 1)) as).1,
        (a.reproduce (ks 0)).2 ++ (reproduceList (fun i => ks (i + 1)) as).2)
    else
      (a :: (reproduceList ks as).1, (reproduceList ks as).2)

/-- `Field.reproduce_animals`: the newborn rabbits and foxes are appended to
their populations after both loops. -/
def Field.reproduce_animals (f : Field) (kr kf : Nat → Nat) : Field :=
  { f with rabbits := (reproduceList kr f.rabbits).1 ++ (reproduceList kr f.rabbits).2,
           foxes := (reproduceList kf f.foxes).1 ++ (reproduceList kf f.foxes).2 }

/-- `Field.grow_grass`: `np.maximum(self.field, grow)` where `grow` is 1 on the
cells whose uniform draw is below `GRASS_RATE` and 0 elsewhere. -/
def Field.grow_grass (f : Field) (u : Int → Int → ℚ) : Field :=
  { f with field :=
      fun x y => max (f.field x y) (if u x y < GRASS_RATE then 1 else 0) }

/-- `Field.generation`: the six phases of one simulation step, in source order. -/
def Field.generation (f : Field) (ds kr kf : Nat → Nat) (u : Int → Int → ℚ) : Field :=
  (((((f.move_animals ds).feed_rabbits).feed_foxes).remove_dead).reproduce_animals kr kf).grow_grass u

/-- `len(field.rabbits)`, the rabbit count queried after each generation. -/
def Field.num_rabbits (f : Field) : Nat := f.rabbits.length

/-- `len(field.foxes)`, the fox count queried after each generation. -/
def Field.num_foxes (f : Field) : Nat := f.foxes.length

/-- The animal after k consecutive `starve` calls with no intervening feed. -/
def starveIter (a : Animal) : Nat → Animal
  | 0 => a
  | k + 1 => (starveIter a k).starve

/-- The starvation invariant: a live animal is strictly below its threshold. -/
def Inv (a : Animal) : Prop := a.alive = true → a.hunger < a.starvation_level

/-- Default animal used as the `List.getD` fallback in concrete evaluations. -/
def dA : Animal :=
  { species := "rabbit", max_offspring := 1, starvation_level := 3,
    reproduction_level := 2, hunger := 0, eaten := 0, alive := true, x := 0, y := 0 }

/-- Scenario field: three rabbits and one fox, all at cell (1, 1). -/
def fldB : Field :=
  { field := onesGrid ARRSIZE,
    rabbits :=
      [ { species := "rabbit", max_offspring := 1, starvation_level := 3,
          reproduction_level := 2, hunger := 0, eaten := 0, alive := true, x := 1, y := 1 },
        { species := "rabbit", max_offspring := 1, starvation_level := 3,
          reproduction_level := 2, hunger := 1, eaten := 0, alive := true, x := 1, y := 1 },
        { species := "rabbit", max_offspring := 1, starvation_level := 3,
          reproduction_level := 2, hunger := 2, eaten := 1, alive := true, x := 1, y := 1 } ],
    foxes :=
      [ { species := "fox", max_offspring := 3, starvation_level := 12,
          reproduction_level := 1, hunger := 0, eaten := 0, alive := true, x := 1, y := 1 } ] }

/-- Scenario field: two rabbits sharing the grass cell (2, 3). -/
def fldR : Field :=
  { field := onesGrid ARRSIZE,
    rabbits :=
      [ { species := "rabbit", max_offspring := 1, starvation_level := 3,
          reproduction_level := 2, hunger := 0, eaten := 0, alive := true, x := 2, y := 3 },
        { species := "rabbit", max_offspring := 1, starvation_level := 3,
          reproduction_level := 2, hunger := 1, eaten := 1, alive := true, x := 2, y := 3 } ],
    foxes := [] }

/-- Scenario field: one rabbit at (3, 4) and one fox at (10, 10). -/
def fldG : Field :=
  { field := onesGrid ARRSIZE,
    rabbits :=
      [ { species := "rabbit", max_offspring := 1, starvation_level := 3,
          reproduction_level := 2, hunger := 0, eaten := 0, alive := true, x := 3, y := 4 } ],
    foxes :=
      [ { species := "fox", max_offspring := 3, starvation_level := 12,
          reproduction_level := 1, hunger := 5, eaten := 0, alive := true, x := 10, y := 10 } ] }

/-- Concrete rabbit used to evaluate reproduction: it has starved once since
its last meal (`hunger = 1`) but has eaten enough to reproduce. -/
def rb1 : Animal :=
  { species := "rabbit", max_offspring := 1, starvation_level := 3,
    reproduction_level := 2, hunger := 1, eaten := 2, alive := true, x := 5, y := 7 }

/-- C1 counterexample: the offspring returned by `reproduce()` do not always
have `hunger == 0` — a parent with `hunger = 1` (eligible to reproduce, since
`eaten = 2` meets its threshold) and draw 1 returns one offspring whose
`hunger` is 1, because offspring are deep copies of the parent and only
`eaten` is reset before copying. -/
theorem reproduce_offspring_hunger_cex :
    ¬ (∀ o ∈ (Animal.reproduce rb1 1).2, o.hunger = 0) := by decide

/-- C1 (amended): `reproduce` resets the caller's `eaten` to 0 and returns
between 0 and `max_offspring` (inclusive) offspring; each offspring copies the
parent's species, constants and position at the moment of the call and has
`eaten = 0`, but inherits the parent's current `hunger` and `alive` flag
rather than having `hunger = 0` and `alive = true` unconditionally. -/
theorem reproduce_spec (a : Animal) (r : Nat) :
    (a.reproduce r).1 = { a with eaten := 0 }
    ∧ (a.reproduce r).2.length ≤ a.max_offspring
    ∧ ∀ o ∈ (a.reproduce r).2,
        o.species = a.species ∧ o.max_offspring = a.max_offspring
        ∧ o.starvation_level = a.starvation_level
        ∧ o.reproduction_level = a.reproduction_level
        ∧ o.hunger = a.hunger ∧ o.eaten = 0 ∧ o.alive = a.alive
        ∧ o.x = a.x ∧ o.y = a.y := by
  refine ⟨rfl, ?_, ?_⟩
  · have h : randint r a.max_offspring < a.max_offspring + 1 :=
      Nat.mod_lt r (Nat.succ_pos a.max_offspring)
    simpa [Animal.reproduce, Nat.lt_succ_iff] using h
  · intro o ho
    have h := List.eq_of_mem_replicate ho
    subst h
    exact ⟨rfl, rfl, rfl, rfl, rfl, rfl, rfl, rfl, rfl⟩

/-- C1 witness: the amended reproduction theorem evaluated on the concrete
rabbit `rb1` with draw 1: the parent keeps everything but its food count, one
offspring is produced, and that offspring carries the parent's `hunger`. -/
theorem reproduce_spec_w :
    (Animal.reproduce rb1 1).1 = { rb1 with eaten := 0 }
    ∧ (Animal.reproduce rb1 1).2.length ≤ 1
    ∧ ((Animal.reproduce rb1 1).2.getD 0 rb1).hunger = rb1.hunger := by
  have h := reproduce_spec rb1 1
  refine ⟨h.1, h.2.1, ?_⟩
  have hm : (Animal.reproduce rb1 1).2.getD 0 rb1 ∈ (Animal.reproduce rb1 1).2 := by decide
  exact (h.2.2 _ hm).2.2.2.2.1

/-- C6 counterexample: constructing a field with the non-positive dimension 0
is not rejected and produces no "invalid configuration" failure of any kind:
it returns an ordinary `Field` value whose grid has no in-range cell and whose
populations are empty. -/
theorem init_no_validation_cex :
    (Field.init 0).rabbits = [] ∧ (Field.init 0).foxes = []
    ∧ (Field.init 0).field 0 0 = 0 := by
  exact ⟨rfl, rfl, by decide⟩

/-- C6 (amended): construction performs no configuration validation and cannot
fail: for every dimension `n`, including the non-positive `n = 0`, it returns
a field with empty populations and grass on exactly the in-range cells.  An
invalid dimension therefore surfaces only in later operations (empty random
range when placing animals, modulo by zero in movement), never as a rejection
at construction time. -/
theorem init_total_spec (n : Nat) (x y : Int) :
    (Field.init n).rabbits = [] ∧ (Field.init n).foxes = []
    ∧ (0 ≤ x → x < (n : Int) → 0 ≤ y → y < (n : Int) → (Field.init n).field x y = 1) := by
  refine ⟨rfl, rfl, fun h1 h2 h3 h4 => ?_⟩
  simp [Field.init, onesGrid, h1, h2, h3, h4]

/-- C6 witness: the amended construction theorem evaluated at dimension 1 and
cell (0, 0). -/
theorem init_total_spec_w :
    (Field.init 1).field 0 0 = 1
    ∧ (Field.init 1).rabbits = [] ∧ (Field.init 1).foxes = [] := by
  have h := init_total_spec 1 0 0
  exact ⟨h.2.2 (by decide) (by decide) (by decide) (by decide), h.1, h.2.1⟩

/-- C7: `generation()` is exactly the six phases in source order — move all
animals, feed rabbits, feed foxes, remove dead, reproduce survivors, regrow
grass — each executed once, and the rabbit and fox counts queryable afterwards
are the lengths of the resulting population lists. -/
theorem generation_phase_order (f : Field) (ds kr kf : Nat → Nat) (u : Int → Int → ℚ) :
    f.generation ds kr kf u
      = (((((f.move_animals ds).feed_rabbits).feed_foxes).remove_dead).reproduce_animals
          kr kf).grow_grass u
    ∧ (f.generation ds kr kf u).num_rabbits = (f.generation ds kr kf u).rabbits.length
    ∧ (f.generation ds kr kf u).num_foxes = (f.generation ds kr kf u).foxes.length :=
  ⟨rfl, rfl, rfl⟩

/-- C8: `grow_grass` is the pointwise union of the old grid with the random
regrowth (1 exactly on the cells whose uniform draw falls below `GRASS_RATE`),
hence monotone: a cell with grass before the call still has it after, and the
populations are untouched. -/
theorem grow_grass_spec (f : Field) (u : Int → Int → ℚ) (x y : Int) :
    (f.grow_grass u).field x y = max (f.field x y) (if u x y < GRASS_RATE then 1 else 0)
    ∧ f.field x y ≤ (f.grow_grass u).field x y
    ∧ (f.field x y = 1 → (f.grow_grass u).field x y = 1)
    ∧ (f.grow_grass u).rabbits = f.rabbits ∧ (f.grow_grass u).foxes = f.foxes := by
  refine ⟨rfl, le_max_left _ _, fun h => ?_, rfl, rfl⟩
  have hle : (if u x y < GRASS_RATE then 1 else 0) ≤ 1 := by split <;> simp
  show max (f.field x y) (if u x y < GRASS_RATE then 1 else 0) = 1
  rw [h]
  exact Nat.max_eq_left hle

/-- C8 witness: the grow-grass theorem evaluated on a fresh 2×2 field with all
draws equal to 1 (no regrowth event): the grass at (1, 1) is preserved. -/
theorem grow_grass_spec_w :
    (Field.init 2).field 1 1 = 1
    ∧ ((Field.init 2).grow_grass (fun _ _ => 1)).field 1 1 = 1 :=
  ⟨by decide, (grow_grass_spec (Field.init 2) (fun _ _ => 1) 1 1).2.2.1 (by decide)⟩

/-- C9: a freshly constructed field (dimension `ARRSIZE`) has grass on every
in-range cell of the grid — the grid starts entirely grassy, not empty — and
both population lists are empty. -/
theorem init_state_spec (x y : Int) (h1 : 0 ≤ x) (h2 : x < (ARRSIZE : Int))
    (h3 : 0 ≤ y) (h4 : y < (ARRSIZE : Int)) :
    (Field.init ARRSIZE).field x y = 1
    ∧ (Field.init ARRSIZE).rabbits = [] ∧ (Field.init ARRSIZE).foxes = [] :=
  ⟨by simp [Field.init, onesGrid, h1, h2, h3, h4], rfl, rfl⟩

/-- C9 witness: the fresh-field theorem evaluated at cell (3, 4). -/
theorem init_state_spec_w :
    (Field.init ARRSIZE).field 3 4 = 1
    ∧ (Field.init ARRSIZE).rabbits = [] ∧ (Field.init ARRSIZE).foxes = [] :=
  init_state_spec 3 4 (by decide) (by decide) (by decide) (by decide)

/-- C10: `add_animal` called with a species tag that is neither "rabbit" nor
"fox" leaves the field — both population lists — unchanged and reports
nothing: unknown species are silently dropped. -/
theorem add_animal_unknown_species (f : Field) (a : Animal)
    (h1 : a.species ≠ "rabbit") (h2 : a.species ≠ "fox") :
    f.add_animal a = f := by
  simp [Field.add_animal, h1, h2]

theorem starve_hunger (a : Animal) : (a.starve).hunger = a.hunger + 1 := by
  by_cases h : a.starvation_level ≤ a.hunger + 1 <;> simp [Animal.starve, h]

theorem starve_starvation_level (a : Animal) :
    (a.starve).starvation_level = a.starvation_level := by
  by_cases h : a.starvation_level ≤ a.hunger + 1 <;> simp [Animal.starve, h]

theorem starve_alive (a : Animal) :
    (a.starve).alive = if a.starvation_level ≤ a.hunger + 1 then false else a.alive := by
  by_cases h : a.starvation_level ≤ a.hunger + 1 <;> simp [Animal.starve, h]

theorem starveIter_hunger (a : Animal) (k : Nat) :
    (starveIter a k).hunger = a.hunger + k := by
  induction k with
  | zero => rfl
  | succ k ih =>
    rw [starveIter, starve_hunger, ih]
    omega

theorem starveIter_starvation_level (a : Animal) (k : Nat) :
    (starveIter a k).starvation_level = a.starvation_level := by
  induction k with
  | zero => rfl
  | succ k ih => rw [starveIter, starve_starvation_level, ih]

theorem starveIter_alive (a : Animal) (h0 : a.hunger = 0) (ha : a.alive = true)
    (hs : 0 < a.starvation_level) (k : Nat) :
    (starveIter a k).alive = decide (k < a.starvation_level) := by
  induction k with
  | zero =>
    rw [starveIter, ha, (decide_eq_true hs).symm]
  | succ k ih =>
    rw [starveIter, starve_alive, starveIter_hunger, starveIter_starvation_level, h0,
      Nat.zero_add, ih]
    by_cases hc : a.starvation_level ≤ k + 1
    · rw [if_pos hc, decide_eq_false (by omega)]
    · rw [if_neg hc, decide_eq_true (by omega), decide_eq_true (by omega)]

/-- C4: for an animal starting at `hunger = 0`, alive, with a positive
starvation threshold, every `starve` (`go_hungry`) call increments `hunger`
by exactly 1, the animal is still alive after any number of calls smaller
than the threshold, and is dead exactly after the threshold-th call;
moreover a single `starve` kills if and only if the animal was already dead
or the incremented hunger reaches the threshold — the sole death trigger in
that operation. -/
theorem starve_spec (a : Animal) (h0 : a.hunger = 0) (ha : a.alive = true)
    (hs : 0 < a.starvation_level) :
    (∀ k, (starveIter a k).hunger = k)
    ∧ (∀ k, k < a.starvation_level → (starveIter a k).alive = true)
    ∧ (starveIter a a.starvation_level).alive = false
    ∧ (∀ b : Animal, (b.starve).hunger = b.hunger + 1
        ∧ ((b.starve).alive = false ↔
            (b.alive = false ∨ b.starvation_level ≤ b.hunger + 1))) := by
  refine ⟨?_, ?_, ?_, ?_⟩
  · intro k
    rw [starveIter_hunger, h0, Nat.zero_add]
  · intro k hk
    rw [starveIter_alive a h0 ha hs k, decide_eq_true hk]
  · rw [starveIter_alive a h0 ha hs, decide_eq_false (by omega)]
  · intro b
    refine ⟨starve_hunger b, ?_⟩
    rw [starve_alive]
    by_cases hc : b.starvation_level ≤ b.hunger + 1
    · simp [hc]
    · simp [hc]

/-- C4 witness: the starvation theorem evaluated on the default rabbit
(threshold 3): alive after 2 unfed generations, dead after 3, hunger then 3. -/
theorem starve_spec_w :
    (starveIter dA 2).alive = true
    ∧ (starveIter dA 3).alive = false
    ∧ (starveIter dA 3).hunger = 3 := by
  have h := starve_spec dA rfl rfl (by decide)
  exact ⟨h.2.1 2 (by decide), h.2.2.1, h.1 3⟩

theorem getD_map_of_lt (l : List Animal) (fn : Animal → Animal) (i : Nat) (d : Animal)
    (h : i < l.length) : (l.map fn).getD i d = fn (l.getD i d) := by
  induction l generalizing i with
  | nil => simp at h
  | cons a as ih =>
    cases i with
    | zero => rfl
    | succ i =>
      simp only [List.map_cons, List.getD_cons_succ]
      exact ih i (by simpa using h)

/-- C2: in `feed_foxes`, the rabbit grouping is taken at the start of the
phase; every rabbit whose cell holds some fox is marked dead (all others are
untouched), every fox whose cell holds at least one rabbit eats exactly the
number of rabbits grouped at that cell (each co-located fox counting the same
full group), and a fox on a rabbit-free cell starves. -/
theorem feed_foxes_spec (f : Field) (d : Animal) :
    ((f.feed_foxes).rabbits.length = f.rabbits.length
      ∧ (f.feed_foxes).foxes.length = f.foxes.length)
    ∧ (∀ i, i < f.rabbits.length →
        ((∃ fx ∈ f.foxes, fx.x = (f.rabbits.getD i d).x ∧ fx.y = (f.rabbits.getD i d).y) →
          (f.feed_foxes).rabbits.getD i d = { f.rabbits.getD i d with alive := false })
        ∧ ((∀ fx ∈ f.foxes, ¬(fx.x = (f.rabbits.getD i d).x ∧ fx.y = (f.rabbits.getD i d).y)) →
          (f.feed_foxes).rabbits.getD i d = f.rabbits.getD i d))
    ∧ (∀ i, i < f.foxes.length →
        (0 < (rabbitsAt f.rabbits (f.foxes.getD i d).x (f.foxes.getD i d).y).length →
          (f.feed_foxes).foxes.getD i d
            = (f.foxes.getD i d).eat
                (rabbitsAt f.rabbits (f.foxes.getD i d).x (f.foxes.getD i d).y).length
          ∧ ((f.feed_foxes).foxes.getD i d).eaten
            = (f.foxes.getD i d).eaten
              + (rabbitsAt f.rabbits (f.foxes.getD i d).x (f.foxes.getD i d).y).length)
        ∧ ((rabbitsAt f.rabbits (f.foxes.getD i d).x (f.foxes.getD i d).y).length = 0 →
          (f.feed_foxes).foxes.getD i d = (f.foxes.getD i d).starve)) := by
  refine ⟨⟨by simp [Field.feed_foxes], by simp [Field.feed_foxes]⟩, ?_, ?_⟩
  · intro i hi
    have hmap : (f.feed_foxes).rabbits.getD i d
        = (fun r => if f.foxes.any (fun fx => fx.x == r.x && fx.y == r.y) then
            { r with alive := false } else r) (f.rabbits.getD i d) :=
      getD_map_of_lt f.rabbits _ i d hi
    constructor
    · intro hex
      have hany : f.foxes.any
          (fun fx => fx.x == (f.rabbits.getD i d).x && fx.y == (f.rabbits.getD i d).y) = true := by
        rw [List.any_eq_true]
        obtain ⟨fx, hfx, h1, h2⟩ := hex
        exact ⟨fx, hfx, by simp [h1, h2]⟩
      rw [hmap]
      simp only [hany, if_true]
    · intro hall
      have hany : f.foxes.any
          (fun fx => fx.x == (f.rabbits.getD i d).x && fx.y == (f.rabbits.getD i d).y) = false := by
        rw [List.any_eq_false]
        intro fx hfx
        have := hall fx hfx
        simp only [Bool.and_eq_true, beq_iff_eq]
        tauto
      rw [hmap]
      simp only [hany, Bool.false_eq_true, if_false]
  · intro i hi
    have hmap : (f.feed_foxes).foxes.getD i d
        = (if (rabbitsAt f.rabbits (f.foxes.getD i d).x (f.foxes.getD i d).y).length ≠ 0 then
            (f.foxes.getD i d).eat
              (rabbitsAt f.rabbits (f.foxes.getD i d).x (f.foxes.getD i d).y).length
          else (f.foxes.getD i d).starve) :=
      getD_map_of_lt f.foxes _ i d hi
    constructor
    · intro hpos
      have hne : (rabbitsAt f.rabbits (f.foxes.getD i d).x (f.foxes.getD i d).y).length ≠ 0 :=
        Nat.pos_iff_ne_zero.mp hpos
      rw [hmap, if_pos hne]
      exact ⟨rfl, rfl⟩
    · intro hz
      rw [hmap, if_neg (not_not_intro hz)]

/-- C2 witness: scenario B — three rabbits and a fox at cell (1, 1): the fox's
cell has a positive rabbit count, its food grows by that count (3), and the
last rabbit of the group is marked dead. -/
theorem feed_foxes_spec_w :
    0 < (rabbitsAt fldB.rabbits (fldB.foxes.getD 0 dA).x (fldB.foxes.getD 0 dA).y).length
    ∧ ((fldB.feed_foxes).foxes.getD 0 dA).eaten
        = (fldB.foxes.getD 0 dA).eaten
          + (rabbitsAt fldB.rabbits (fldB.foxes.getD 0 dA).x (fldB.foxes.getD 0 dA).y).length
    ∧ (fldB.feed_foxes).rabbits.getD 2 dA = { fldB.rabbits.getD 2 dA with alive := false } := by
  have h := feed_foxes_spec fldB dA
  exact ⟨by decide, (((h.2.2) 0 (by decide)).1 (by decide)).2,
    ((h.2.1 2 (by decide)).1 (by decide))⟩

theorem setCell_other (g : Grid) (X Y x y : Int) (v : Nat) (h : ¬(x = X ∧ y = Y)) :
    setCell g X Y v x y = g x y := by
  simp only [setCell]
  rw [if_neg h]

theorem setCell_same (g : Grid) (X Y : Int) (v : Nat) : setCell g X Y v X Y = v := by
  simp [setCell]

theorem feedRabbitsAux_length (g : Grid) (rs : List Animal) :
    (feedRabbitsAux g rs).2.length = rs.length := by
  induction rs generalizing g with
  | nil => rfl
  | cons r rs ih =>
    by_cases h : g r.x r.y = 1 <;> simp [feedRabbitsAux, h, ih]

theorem feedRabbitsAux_grid_ne_one (rs : List Animal) (g : Grid) (x y : Int)
    (h : g x y ≠ 1) : (feedRabbitsAux g rs).1 x y = g x y := by
  induction rs generalizing g with
  | nil => rfl
  | cons r rs ih =>
    by_cases hg : g r.x r.y = 1
    · have hxy : ¬(x = r.x ∧ y = r.y) := by
        rintro ⟨rfl, rfl⟩
        exact h hg
      have hset : setCell g r.x r.y 0 x y = g x y := setCell_other g r.x r.y x y 0 hxy
      have hrec : (feedRabbitsAux g (r :: rs)).1 = (feedRabbitsAux (setCell g r.x r.y 0) rs).1 := by
        simp [feedRabbitsAux, hg]
      rw [hrec, ih (setCell g r.x r.y 0) (by rw [hset]; exact h), hset]
    · have hrec : (feedRabbitsAux g (r :: rs)).1 = (feedRabbitsAux g rs).1 := by
        simp [feedRabbitsAux, hg]
      rw [hrec, ih g h]

theorem feedRabbitsAux_grid_cleared (rs : List Animal) (g : Grid) (x y : Int)
    (hg : g x y = 1) (hex : ∃ r ∈ rs, r.x = x ∧ r.y = y) :
    (feedRabbitsAux g rs).1 x y = 0 := by
  induction rs generalizing g with
  | nil => simp at hex
  | cons r rs ih =>
    by_cases hcell : r.x = x ∧ r.y = y
    · have hgr : g r.x r.y = 1 := by rw [hcell.1, hcell.2]; exact hg
      have h0 : setCell g r.x r.y 0 x y = 0 := by
        rw [← hcell.1, ← hcell.2]
        exact setCell_same g r.x r.y 0
      have hrec : (feedRabbitsAux g (r :: rs)).1 = (feedRabbitsAux (setCell g r.x r.y 0) rs).1 := by
        simp [feedRabbitsAux, hgr]
      rw [hrec, feedRabbitsAux_grid_ne_one rs (setCell g r.x r.y 0) x y (by rw [h0]; decide), h0]
    · obtain ⟨r', hr', hx⟩ := hex
      rcases List.mem_cons.mp hr' with h1 | h1
      · exact absurd (h1 ▸ hx) hcell
      · by_cases hgr : g r.x r.y = 1
        · have hxy : ¬(x = r.x ∧ y = r.y) := by
            rintro ⟨rfl, rfl⟩
            exact hcell ⟨rfl, rfl⟩
          have hset : setCell g r.x r.y 0 x y = g x y := setCell_other g r.x r.y x y 0 hxy
          have hrec : (feedRabbitsAux g (r :: rs)).1
              = (feedRabbitsAux (setCell g r.x r.y 0) rs).1 := by
            simp [feedRabbitsAux, hgr]
          rw [hrec]
          exact ih (setCell g r.x r.y 0) (by rw [hset]; exact hg) ⟨r', h1, hx⟩
        · have hrec : (feedRabbitsAux g (r :: rs)).1 = (feedRabbitsAux g rs).1 := by
            simp [feedRabbitsAux, hgr]
          rw [hrec]
          exact ih g hg ⟨r', h1, hx⟩

theorem feedRabbitsAux_first_eats (rs : List Animal) (g : Grid) (i : Nat) (d : Animal)
    (h : i < rs.length) (hg : g (rs.getD i d).x (rs.getD i d).y = 1)
    (hfirst : ∀ j, j < i → ¬((rs.getD j d).x = (rs.getD i d).x
        ∧ (rs.getD j d).y = (rs.getD i d).y)) :
    (feedRabbitsAux g rs).2.getD i d = (rs.getD i d).eat 1 := by
  induction rs generalizing g i with
  | nil => simp at h
  | cons r rs ih =>
    cases i with
    | zero =>
      simp only [List.getD_cons_zero] at hg ⊢
      simp [feedRabbitsAux, hg]
    | succ i =>
      simp only [List.getD_cons_succ] at hg ⊢
      have hr : ¬(r.x = (rs.getD i d).x ∧ r.y = (rs.getD i d).y) := by
        have := hfirst 0 (Nat.succ_pos i)
        simpa using this
      have hfirst' : ∀ j, j < i → ¬((rs.getD j d).x = (rs.getD i d).x
          ∧ (rs.getD j d).y = (rs.getD i d).y) := by
        intro j hj
        have := hfirst (j + 1) (Nat.succ_lt_succ hj)
        simpa using this
      by_cases hgr : g r.x r.y = 1
      · have hxy : ¬((rs.getD i d).x = r.x ∧ (rs.getD i d).y = r.y) := by
          rintro ⟨h1, h2⟩
          exact hr ⟨h1.symm, h2.symm⟩
        have hg' : setCell g r.x r.y 0 (rs.getD i d).x (rs.getD i d).y = 1 := by
          rw [setCell_other g r.x r.y _ _ 0 hxy]
          exact hg
        have hrec : (feedRabbitsAux g (r :: rs)).2
            = r.eat 1 :: (feedRabbitsAux (setCell g r.x r.y 0) rs).2 := by
          simp [feedRabbitsAux, hgr]
        rw [hrec, List.getD_cons_succ]
        exact ih _ i (by simpa using h) hg' hfirst'
      · have hrec : (feedRabbitsAux g (r :: rs)).2
            = r.starve :: (feedRabbitsAux g rs).2 := by
          simp [feedRabbitsAux, hgr]
        rw [hrec, List.getD_cons_succ]
        exact ih g i (by simpa using h) hg hfirst'

theorem feedRabbitsAux_no_grass_starves (rs : List Animal) (g : Grid) (i : Nat) (d : Animal)
    (h : i < rs.length) (hg : g (rs.getD i d).x (rs.getD i d).y ≠ 1) :
    (feedRabbitsAux g rs).2.getD i d = (rs.getD i d).starve := by
  induction rs generalizing g i with
  | nil => simp at h
  | cons r rs ih =>
    cases i with
    | zero =>
      simp only [List.getD_cons_zero] at hg ⊢
      simp [feedRabbitsAux, hg]
    | succ i =>
      simp only [List.getD_cons_succ] at hg ⊢
      by_cases hgr : g r.x r.y = 1
      · have hxy : ¬((rs.getD i d).x = r.x ∧ (rs.getD i d).y = r.y) := by
          rintro ⟨h1, h2⟩
          rw [h1, h2] at hg
          exact hg hgr
        have hg' : setCell g r.x r.y 0 (rs.getD i d).x (rs.getD i d).y ≠ 1 := by
          rw [setCell_other g r.x r.y _ _ 0 hxy]
          exact hg
        have hrec : (feedRabbitsAux g (r :: rs)).2
            = r.eat 1 :: (feedRabbitsAux (setCell g r.x r.y 0) rs).2 := by
          simp [feedRabbitsAux, hgr]
        rw [hrec, List.getD_cons_succ]
        exact ih _ i (by simpa using h) hg'
      · have hrec : (feedRabbitsAux g (r :: rs)).2
            = r.starve :: (feedRabbitsAux g rs).2 := by
          simp [feedRabbitsAux, hgr]
        rw [hrec, List.getD_cons_succ]
        exact ih g i (by simpa using h) hg

theorem feedRabbitsAux_later_starves (rs : List Animal) (g : Grid) (i j : Nat) (d : Animal)
    (h : i < rs.length) (hj : j < i)
    (hcell : (rs.getD j d).x = (rs.getD i d).x ∧ (rs.getD j d).y = (rs.getD i d).y) :
    (feedRabbitsAux g rs).2.getD i d = (rs.getD i d).starve := by
  induction rs generalizing g i j with
  | nil => simp at h
  | cons r rs ih =>
    cases i with
    | zero => omega
    | succ i =>
      cases j with
      | zero =>
        simp only [List.getD_cons_zero, List.getD_cons_succ] at hcell ⊢
        by_cases hgr : g r.x r.y = 1
        · have h0 : setCell g r.x r.y 0 (rs.getD i d).x (rs.getD i d).y = 0 := by
            rw [← hcell.1, ← hcell.2]
            exact setCell_same g r.x r.y 0
          have hrec : (feedRabbitsAux g (r :: rs)).2
              = r.eat 1 :: (feedRabbitsAux (setCell g r.x r.y 0) rs).2 := by
            simp [feedRabbitsAux, hgr]
          rw [hrec, List.getD_cons_succ]
          exact feedRabbitsAux_no_grass_starves rs _ i d (by simpa using h) (by rw [h0]; decide)
        · have hgc : g (rs.getD i d).x (rs.getD i d).y ≠ 1 := by
            rw [← hcell.1, ← hcell.2]
            exact hgr
          have hrec : (feedRabbitsAux g (r :: rs)).2
              = r.starve :: (feedRabbitsAux g rs).2 := by
            simp [feedRabbitsAux, hgr]
          rw [hrec, List.getD_cons_succ]
          exact feedRabbitsAux_no_grass_starves rs g i d (by simpa using h) hgc
      | succ j =>
        simp only [List.getD_cons_succ] at hcell ⊢
        by_cases hgr : g r.x r.y = 1
        · have hrec : (feedRabbitsAux g (r :: rs)).2
              = r.eat 1 :: (feedRabbitsAux (setCell g r.x r.y 0) rs).2 := by
            simp [feedRabbitsAux, hgr]
          rw [hrec, List.getD_cons_succ]
          exact ih _ i j (by simpa using h) (by omega) hcell
        · have hrec : (feedRabbitsAux g (r :: rs)).2
              = r.starve :: (feedRabbitsAux g rs).2 := by
            simp [feedRabbitsAux, hgr]
          rw [hrec, List.getD_cons_succ]
          exact ih g i j (by simpa using h) (by omega) hcell

/-- C3: in `feed_rabbits`, grass is a single-use resource consumed by at most
one rabbit per cell per generation: for rabbit i standing on a cell with
grass, if no earlier rabbit (in population order) shares that cell it feeds
by exactly 1 and the cell ends the phase without grass — in particular a
rabbit alone on a grass cell always feeds by exactly 1 with the grass
consumed — while any rabbit preceded by a same-cell rabbit goes hungry. -/
theorem feed_rabbits_spec (f : Field) (i : Nat) (d : Animal)
    (h : i < f.rabbits.length)
    (hg : f.field (f.rabbits.getD i d).x (f.rabbits.getD i d).y = 1) :
    ((∀ j, j < i → ¬((f.rabbits.getD j d).x = (f.rabbits.getD i d).x
          ∧ (f.rabbits.getD j d).y = (f.rabbits.getD i d).y)) →
        (f.feed_rabbits).rabbits.getD i d = (f.rabbits.getD i d).eat 1
        ∧ ((f.feed_rabbits).rabbits.getD i d).eaten = (f.rabbits.getD i d).eaten + 1
        ∧ (f.feed_rabbits).field (f.rabbits.getD i d).x (f.rabbits.getD i d).y = 0)
    ∧ (∀ j, j < i → ((f.rabbits.getD j d).x = (f.rabbits.getD i d).x
          ∧ (f.rabbits.getD j d).y = (f.rabbits.getD i d).y) →
        (f.feed_rabbits).rabbits.getD i d = (f.rabbits.getD i d).starve) := by
  constructor
  · intro hfirst
    have h1 : (f.feed_rabbits).rabbits.getD i d = (f.rabbits.getD i d).eat 1 :=
      feedRabbitsAux_first_eats f.rabbits f.field i d h hg hfirst
    refine ⟨h1, by rw [h1]; rfl, ?_⟩
    have hmem : f.rabbits.getD i d ∈ f.rabbits := by
      rw [List.getD_eq_getElem f.rabbits d h]
      exact List.getElem_mem h
    exact feedRabbitsAux_grid_cleared f.rabbits f.field _ _ hg
      ⟨f.rabbits.getD i d, hmem, rfl, rfl⟩
  · intro j hj hcell
    exact feedRabbitsAux_later_starves f.rabbits f.field i j d h hj hcell

/-- C3 witness: two rabbits share the grass cell (2, 3) of `fldR`: the first
one in population order eats 1 and the grass is consumed, the second starves. -/
theorem feed_rabbits_spec_w :
    (fldR.feed_rabbits).rabbits.getD 0 dA = (fldR.rabbits.getD 0 dA).eat 1
    ∧ (fldR.feed_rabbits).field 2 3 = 0
    ∧ (fldR.feed_rabbits).rabbits.getD 1 dA = (fldR.rabbits.getD 1 dA).starve := by
  have h0 := (feed_rabbits_spec fldR 0 dA (by decide) (by decide)).1
    (fun j hj => absurd hj (by omega))
  have h1 := (feed_rabbits_spec fldR 1 dA (by decide) (by decide)).2 0 (by decide) (by decide)
  exact ⟨h0.1, h0.2.2, h1⟩

instance (a : Animal) : Decidable (Inv a) :=
  decidable_of_iff (a.alive = true → a.hunger < a.starvation_level) Iff.rfl

theorem Inv_move (a : Animal) (rx ry : Nat) (h : Inv a) : Inv (a.move rx ry) := h

theorem Inv_reset_eaten (a : Animal) (h : Inv a) : Inv { a with eaten := 0 } := h

theorem Inv_eat (a : Animal) (n : Nat) (h : Inv a) : Inv (a.eat n) := by
  intro ha
  have h2 := h ha
  show (0 : Nat) < a.starvation_level
  omega

theorem Inv_starve (a : Animal) : Inv (a.starve) := by
  intro ha
  rw [starve_alive] at ha
  by_cases hc : a.starvation_level ≤ a.hunger + 1
  · rw [if_pos hc] at ha
    exact absurd ha (by simp)
  · rw [starve_hunger, starve_starvation_level]
    omega

theorem Inv_kill (a : Animal) : Inv { a with alive := false } := by
  intro ha
  exact absurd ha (by simp)

theorem mem_moveList (ds : Nat → Nat) (l : List Animal) (b : Animal)
    (hb : b ∈ moveList ds l) : ∃ a ∈ l, ∃ rx ry, b = a.move rx ry := by
  induction l generalizing ds with
  | nil => simp [moveList] at hb
  | cons a as ih =>
    simp only [moveList] at hb
    rcases List.mem_cons.mp hb with h1 | h1
    · exact ⟨a, List.mem_cons_self a as, ds 0, ds 1, h1⟩
    · obtain ⟨a', ha', rx, ry, hb'⟩ := ih _ h1
      exact ⟨a', List.mem_cons_of_mem a ha', rx, ry, hb'⟩

theorem mem_feedRabbitsAux (l : List Animal) (g : Grid) (b : Animal)
    (hb : b ∈ (feedRabbitsAux g l).2) : ∃ a ∈ l, b = a.eat 1 ∨ b = a.starve := by
  induction l generalizing g with
  | nil => simp [feedRabbitsAux] at hb
  | cons r rs ih =>
    by_cases hg : g r.x r.y = 1
    · have hrec : (feedRabbitsAux g (r :: rs)).2
          = r.eat 1 :: (feedRabbitsAux (setCell g r.x r.y 0) rs).2 := by
        simp [feedRabbitsAux, hg]
      rw [hrec] at hb
      rcases List.mem_cons.mp hb with h1 | h1
      · exact ⟨r, List.mem_cons_self r rs, Or.inl h1⟩
      · obtain ⟨a, ha, h2⟩ := ih _ h1
        exact ⟨a, List.mem_cons_of_mem r ha, h2⟩
    · have hrec : (feedRabbitsAux g (r :: rs)).2
          = r.starve :: (feedRabbitsAux g rs).2 := by
        simp [feedRabbitsAux, hg]
      rw [hrec] at hb
      rcases List.mem_cons.mp hb with h1 | h1
      · exact ⟨r, List.mem_cons_self r rs, Or.inr h1⟩
      · obtain ⟨a, ha, h2⟩ := ih _ h1
        exact ⟨a, List.mem_cons_of_mem r ha, h2⟩

theorem mem_reproduceList_parents (l : List Animal) (ks : Nat → Nat) (b : Animal)
    (hb : b ∈ (reproduceList ks l).1) : ∃ a ∈ l, b = a ∨ b = { a with eaten := 0 } := by
  induction l generalizing ks with
  | nil => simp [reproduceList] at hb
  | cons a as ih =>
    by_cases hc : a.can_reproduce = true
    · have hrec : (reproduceList ks (a :: as)).1
          = { a with eaten := 0 } :: (reproduceList (fun i => ks (i + 1)) as).1 := by
        simp [reproduceList, hc, Animal.reproduce]
      rw [hrec] at hb
      rcases List.mem_cons.mp hb with h1 | h1
      · exact ⟨a, List.mem_cons_self a as, Or.inr h1⟩
      · obtain ⟨a', ha', h2⟩ := ih _ h1
        exact ⟨a', List.mem_cons_of_mem a ha', h2⟩
    · have hrec : (reproduceList ks (a :: as)).1 = a :: (reproduceList ks as).1 := by
        simp [reproduceList, hc]
      rw [hrec] at hb
      rcases List.mem_cons.mp hb with h1 | h1
      · exact ⟨a, List.mem_cons_self a as, Or.inl h1⟩
      · obtain ⟨a', ha', h2⟩ := ih _ h1
        exact ⟨a', List.mem_cons_of_mem a ha', h2⟩

theorem mem_reproduceList_born (l : List Animal) (ks : Nat → Nat) (b : Animal)
    (hb : b ∈ (reproduceList ks l).2) : ∃ a ∈ l, b = { a with eaten := 0 } := by
  induction l generalizing ks with
  | nil => simp [reproduceList] at hb
  | cons a as ih =>
    by_cases hc : a.can_reproduce = true
    · have hrec : (reproduceList ks (a :: as)).2
          = (a.reproduce (ks 0)).2 ++ (reproduceList (fun i => ks (i + 1)) as).2 := by
        simp [reproduceList, hc]
      rw [hrec] at hb
      rcases List.mem_append.mp hb with h1 | h1
      · exact ⟨a, List.mem_cons_self a as, List.eq_of_mem_replicate h1⟩
      · obtain ⟨a', ha', h2⟩ := ih _ h1
        exact ⟨a', List.mem_cons_of_mem a ha', h2⟩
    · have hrec : (reproduceList ks (a :: as)).2 = (reproduceList ks as).2 := by
        simp [reproduceList, hc]
      rw [hrec] at hb
      obtain ⟨a', ha', h2⟩ := ih _ hb
      exact ⟨a', List.mem_cons_of_mem a ha', h2⟩

/-- C5: the start-of-generation invariant — every live organism is strictly
below its starvation threshold — is preserved by `generation()`: if it holds
for all live rabbits and foxes before the call, it holds for all live rabbits
and foxes, newborn offspring included, after the call. -/
theorem generation_preserves_inv (f : Field) (ds kr kf : Nat → Nat) (u : Int → Int → ℚ)
    (hr : ∀ a ∈ f.rabbits, Inv a) (hf : ∀ a ∈ f.foxes, Inv a) :
    (∀ a ∈ (f.generation ds kr kf u).rabbits, Inv a)
    ∧ (∀ a ∈ (f.generation ds kr kf u).foxes, Inv a) := by
  -- phase 1: movement changes only positions
  have hr1 : ∀ b ∈ (f.move_animals ds).rabbits, Inv b := by
    intro b hb
    obtain ⟨a, ha, rx, ry, rfl⟩ := mem_moveList ds f.rabbits b hb
    exact Inv_move a rx ry (hr a ha)
  have hq1 : ∀ b ∈ (f.move_animals ds).foxes, Inv b := by
    intro b hb
    obtain ⟨a, ha, rx, ry, rfl⟩ :=
      mem_moveList (fun i => ds (i + 2 * f.rabbits.length)) f.foxes b hb
    exact Inv_move a rx ry (hf a ha)
  -- phase 2: each rabbit either eats (hunger 0) or starves (self-checking)
  have hr2 : ∀ b ∈ ((f.move_animals ds).feed_rabbits).rabbits, Inv b := by
    intro b hb
    obtain ⟨a, ha, h2 | h2⟩ :=
      mem_feedRabbitsAux (f.move_animals ds).rabbits (f.move_animals ds).field b hb
    · exact h2 ▸ Inv_eat a 1 (hr1 a ha)
    · exact h2 ▸ Inv_starve a
  have hq2 : ∀ b ∈ ((f.move_animals ds).feed_rabbits).foxes, Inv b := hq1
  -- phase 3: rabbits are killed or untouched; foxes eat or starve
  have hr3 : ∀ b ∈ (((f.move_animals ds).feed_rabbits).feed_foxes).rabbits, Inv b := by
    intro b hb
    obtain ⟨a, ha, rfl⟩ := List.mem_map.mp hb
    by_cases hc : (((f.move_animals ds).feed_rabbits).foxes.any
        (fun fx => fx.x == a.x && fx.y == a.y)) = true
    · rw [if_pos hc]
      exact Inv_kill a
    · rw [if_neg hc]
      exact hr2 a ha
  have hq3 : ∀ b ∈ (((f.move_animals ds).feed_rabbits).feed_foxes).foxes, Inv b := by
    intro b hb
    obtain ⟨a, ha, rfl⟩ := List.mem_map.mp hb
    by_cases hc : (rabbitsAt ((f.move_animals ds).feed_rabbits).rabbits a.x a.y).length ≠ 0
    · rw [if_pos hc]
      exact Inv_eat a _ (hq2 a ha)
    · rw [if_neg hc]
      exact Inv_starve a
  -- phase 4: removal keeps a sub-population
  have hr4 : ∀ b ∈ ((((f.move_animals ds).feed_rabbits).feed_foxes).remove_dead).rabbits,
      Inv b := by
    intro b hb
    exact hr3 b (List.mem_filter.mp hb).1
  have hq4 : ∀ b ∈ ((((f.move_animals ds).feed_rabbits).feed_foxes).remove_dead).foxes,
      Inv b := by
    intro b hb
    exact hq3 b (List.mem_filter.mp hb).1
  -- phase 5: parents keep hunger and life status; offspring copy them
  have hr5 : ∀ b ∈ (((((f.move_animals ds).feed_rabbits).feed_foxes).remove_dead).reproduce_animals
      kr kf).rabbits, Inv b := by
    intro b hb
    rcases List.mem_append.mp hb with h1 | h1
    · obtain ⟨a, ha, h2 | h2⟩ := mem_reproduceList_parents _ kr b h1
      · exact h2 ▸ hr4 a ha
      · exact h2 ▸ Inv_reset_eaten a (hr4 a ha)
    · obtain ⟨a, ha, h2⟩ := mem_reproduceList_born _ kr b h1
      exact h2 ▸ Inv_reset_eaten a (hr4 a ha)
  have hq5 : ∀ b ∈ (((((f.move_animals ds).feed_rabbits).feed_foxes).remove_dead).reproduce_animals
      kr kf).foxes, Inv b := by
    intro b hb
    rcases List.mem_append.mp hb with h1 | h1
    · obtain ⟨a, ha, h2 | h2⟩ := mem_reproduceList_parents _ kf b h1
      · exact h2 ▸ hq4 a ha
      · exact h2 ▸ Inv_reset_eaten a (hq4 a ha)
    · obtain ⟨a, ha, h2⟩ := mem_reproduceList_born _ kf b h1
      exact h2 ▸ Inv_reset_eaten a (hq4 a ha)
  -- phase 6: grass regrowth leaves both populations untouched
  exact ⟨hr5, hq5⟩

/-- C5 witness: the invariant-preservation theorem evaluated on the concrete
field `fldG` (one live rabbit, one live fox below threshold) with stay-put
movement draws, zero reproduction draws and no-regrowth uniform draws. -/
theorem generation_preserves_inv_w :
    (∀ a ∈ fldG.rabbits, Inv a) ∧ (∀ a ∈ fldG.foxes, Inv a)
    ∧ (∀ a ∈ (fldG.generation (fun _ => 1) (fun _ => 0) (fun _ => 0) (fun _ _ => 1)).rabbits,
        Inv a)
    ∧ (∀ a ∈ (fldG.generation (fun _ => 1) (fun _ => 0) (fun _ => 0) (fun _ _ => 1)).foxes,
        Inv a) := by
  have h := generation_preserves_inv fldG (fun _ => 1) (fun _ => 0) (fun _ => 0) (fun _ _ => 1)
    (by decide) (by decide)
  exact ⟨by decide, by decide, h.1, h.2⟩

/-- C10 witness: adding a "wolf" to a fresh field changes nothing. -/
theorem add_animal_unknown_species_w :
    (Field.init ARRSIZE).add_animal
        { species := "wolf", max_offspring := 1, starvation_level := 3,
          reproduction_level := 2, hunger := 0, eaten := 0, alive := true,
          x := 5, y := 7 }
      = Field.init ARRSIZE :=
  add_animal_unknown_species _ _ (by decide) (by decide)

end Alife
